import Mathlib

/-! miplib: backend selection and constraint dispatch of the Solver facade

A shallow embedding of `src/miplib/solver.cpp`:

* the constructor `Solver::Solver(BackendRequest, bool)` (lines 17-88),
* the two `Solver::add` overloads (lines 105-134),
* `Solver::set_constraint_autoscale` (lines 173-176),
* `Solver::backend_is_compiled` and the two `Solver::backend_is_available`
  overloads (lines 254-321),
* `detail::ISolver::set_indicator_constraint_policy` (lines 367-370).

The preprocessor symbols `WITH_GUROBI`, `WITH_SCIP`, `WITH_LPSOLVE` are the
fields of `Build`.  The engine classes (`GurobiSolver`, `ScipSolver`,
`LpsolveSolver`) and the model value types (`Constr`, `IndicatorConstr`) are
not part of the translated sources; what the translated code calls on them is
taken as a parameter (`Engines`, `BackendOps`, `ModelOps`).  A C++ exception is
a value of `Exception`; an operation that can throw after having changed the
solver returns an `Outcome`, which keeps the state reached when the exception
left the function.
-/

namespace miplib

/-! ## Data model -/

/-- Enumeration `Solver::Backend`; its three values are the `case` labels of
`Solver::backend_is_compiled`. -/
inductive Backend where
  | Gurobi
  | Scip
  | Lpsolve
  deriving DecidableEq, Repr

/-- Enumeration `Solver::BackendRequest`; its five values are the `case` labels
of the constructor and of `operator<<`. -/
inductive BackendRequest where
  | Gurobi
  | Scip
  | Lpsolve
  | BestAtCompileTime
  | BestAtRunTime
  deriving DecidableEq, Repr

/-- Modelled from the spec: the declaration of `Solver::IndicatorConstraintPolicy`
lives in the header `solver.hpp`, which is not among the sources.  The
source names `Reformulate` and `ReformulateIfUnsupported`; the spec gives the
closed set Native, Reformulate, ReformulateIfUnsupported. -/
inductive IndicatorConstraintPolicy where
  | Native
  | Reformulate
  | ReformulateIfUnsupported
  deriving DecidableEq, Repr

/-- A thrown C++ exception.  Every `throw` of `solver.cpp` raises a
`std::logic_error`; `backend_error` stands for whatever an engine throws from
its own code. -/
inductive Exception where
  | logic_error (what : String)
  | backend_error (what : String)
  deriving DecidableEq, Repr

/-- The compile-time configuration: which of the three `WITH_...` symbols are
defined. -/
structure Build where
  WITH_GUROBI : Bool
  WITH_SCIP : Bool
  WITH_LPSOLVE : Bool
  deriving DecidableEq, Repr

/-- What the engine classes answer at run time: the static `is_available()` of
each class, and the indicator-constraint policy a freshly constructed engine
object starts with (set in engine code that is not among the sources). -/
structure Engines where
  gurobi_is_available : Bool
  scip_is_available : Bool
  lpsolve_is_available : Bool
  initial_policy : Backend → IndicatorConstraintPolicy

/-- The static `is_available()` of the engine class of kind `b`. -/
def Engines.is_available (rt : Engines) : Backend → Bool
  | Backend.Gurobi => rt.gurobi_is_available
  | Backend.Scip => rt.scip_is_available
  | Backend.Lpsolve => rt.lpsolve_is_available

/-- One call of an `add` overload received by the engine object behind
`p_impl`. -/
inductive BackendCall (Constr IndicatorConstr : Type) where
  | add (c : Constr)
  | add_indicator (i : IndicatorConstr)
  deriving DecidableEq, Repr

/-- The engine object `*p_impl` (a `detail::ISolver`): its dynamic class, the
`verbose` flag it was constructed with, the base-class member
`m_indicator_constraint_policy`, and the `add` calls it has received so far, in
order. -/
structure ISolver (Constr IndicatorConstr : Type) where
  engine : Backend
  verbose : Bool
  m_indicator_constraint_policy : IndicatorConstraintPolicy
  calls : List (BackendCall Constr IndicatorConstr)

/-- The facade `Solver`: members `m_backend`, `m_constraint_autoscale` and
`p_impl`. -/
structure Solver (Constr IndicatorConstr : Type) where
  m_backend : Backend
  m_constraint_autoscale : Bool
  p_impl : ISolver Constr IndicatorConstr

/-- The query surface of the model value types used by `Solver::add`:
`Constr::must_be_violated`, `Constr::scale`, `IndicatorConstr::reformulation`. -/
structure ModelOps (Constr IndicatorConstr : Type) where
  must_be_violated : Constr → Bool
  scale : Constr → Constr
  reformulation : IndicatorConstr → List Constr

/-- The virtual methods of the active engine used by `Solver::add`:
`supports_indicator_constraint`, and whether its `add` overloads throw, given
the calls received before. -/
structure BackendOps (Constr IndicatorConstr : Type) where
  supports_indicator_constraint : IndicatorConstr → Bool
  add_throws : List (BackendCall Constr IndicatorConstr) → Constr → Option Exception
  add_indicator_throws :
    List (BackendCall Constr IndicatorConstr) → IndicatorConstr → Option Exception

/-- The state a `Solver` is in when an operation ends, and the exception that
ended it, if one was thrown. -/
structure Outcome (Constr IndicatorConstr : Type) where
  solver : Solver Constr IndicatorConstr
  thrown : Option Exception

section Selection

variable {Constr IndicatorConstr : Type}

/-! ## Backend introspection (lines 254-321) -/

/-- `Solver::backend_is_compiled(Backend)`. -/
def backend_is_compiled (cfg : Build) : Backend → Bool
  | Backend.Gurobi => if cfg.WITH_GUROBI then true else false
  | Backend.Scip => if cfg.WITH_SCIP then true else false
  | Backend.Lpsolve => if cfg.WITH_LPSOLVE then true else false

/-- `Solver::backend_is_available(Backend)`. -/
def backend_is_available (cfg : Build) (rt : Engines) (backend : Backend) : Bool :=
  if !backend_is_compiled cfg backend then false
  else
    match backend with
    | Backend.Gurobi => if cfg.WITH_GUROBI then rt.gurobi_is_available else false
    | Backend.Scip => if cfg.WITH_SCIP then rt.scip_is_available else false
    | Backend.Lpsolve => if cfg.WITH_LPSOLVE then rt.lpsolve_is_available else false

/-- `Solver::backend_is_available(BackendRequest)`. -/
def backend_is_available_request (cfg : Build) (rt : Engines)
    (backend_request : BackendRequest) : Bool :=
  if backend_request = BackendRequest.Gurobi then
    backend_is_available cfg rt Backend.Gurobi
  else if backend_request = BackendRequest.Scip then
    backend_is_available cfg rt Backend.Scip
  else if backend_request = BackendRequest.Lpsolve then
    backend_is_available cfg rt Backend.Lpsolve
  else
    backend_is_available cfg rt Backend.Gurobi || backend_is_available cfg rt Backend.Scip
      || backend_is_available cfg rt Backend.Lpsolve

/-! ## Construction (lines 17-88) -/

/-- The expression `std::make_shared<EngineClass>(verbose)`: a fresh engine
object of kind `k` that has received no call yet.  The engine constructors are
not among the sources and are taken to return. -/
def make_shared (rt : Engines) (k : Backend) (verbose : Bool) :
    ISolver Constr IndicatorConstr :=
  { engine := k, verbose := verbose, m_indicator_constraint_policy := rt.initial_policy k,
    calls := [] }

/-- The three statements `p_impl = make_shared<...>(verbose); m_backend = k;
return;`.  The member initialiser has already set `m_constraint_autoscale` to
false. -/
def construct (rt : Engines) (k : Backend) (verbose : Bool) :
    Except Exception (Solver Constr IndicatorConstr) :=
  Except.ok { m_backend := k, m_constraint_autoscale := false, p_impl := make_shared rt k verbose }

/-- The constructor `Solver::Solver(BackendRequest, bool)`. -/
def Solver.new (cfg : Build) (rt : Engines) (backend_request : BackendRequest)
    (verbose : Bool) : Except Exception (Solver Constr IndicatorConstr) :=
  match backend_request with
  | BackendRequest.Gurobi =>
    if cfg.WITH_GUROBI then construct rt Backend.Gurobi verbose
    else Except.error (Exception.logic_error "Request for Gurobi backend but it was not compiled.")
  | BackendRequest.Scip =>
    if cfg.WITH_SCIP then construct rt Backend.Scip verbose
    else Except.error (Exception.logic_error "Request for SCIP backend but it was not compiled.")
  | BackendRequest.Lpsolve =>
    if cfg.WITH_LPSOLVE then construct rt Backend.Lpsolve verbose
    else Except.error (Exception.logic_error "Request for Lpsolve backend but it was not compiled.")
  | BackendRequest.BestAtCompileTime =>
    if cfg.WITH_GUROBI then construct rt Backend.Gurobi verbose
    else if cfg.WITH_SCIP then construct rt Backend.Scip verbose
    else if cfg.WITH_LPSOLVE then construct rt Backend.Lpsolve verbose
    else Except.error (Exception.logic_error "No MIP backends were compiled.")
  | BackendRequest.BestAtRunTime =>
    if cfg.WITH_GUROBI && backend_is_available cfg rt Backend.Gurobi then
      construct rt Backend.Gurobi verbose
    else if cfg.WITH_SCIP && backend_is_available cfg rt Backend.Scip then
      construct rt Backend.Scip verbose
    else if cfg.WITH_LPSOLVE && backend_is_available cfg rt Backend.Lpsolve then
      construct rt Backend.Lpsolve verbose
    else Except.error (Exception.logic_error "No MIP backends are available.")

/-- The fixed order in which the two "best" requests try the engines. -/
def priority_order : List Backend := [Backend.Gurobi, Backend.Scip, Backend.Lpsolve]

/-- The request that names engine `k` explicitly. -/
def explicit_request : Backend → BackendRequest
  | Backend.Gurobi => BackendRequest.Gurobi
  | Backend.Scip => BackendRequest.Scip
  | Backend.Lpsolve => BackendRequest.Lpsolve

/-- The message of the `std::logic_error` thrown for an explicit request of an
engine that is not compiled in (lines 27, 35, 43). -/
def not_compiled_message : Backend → String
  | Backend.Gurobi => "Request for Gurobi backend but it was not compiled."
  | Backend.Scip => "Request for SCIP backend but it was not compiled."
  | Backend.Lpsolve => "Request for Lpsolve backend but it was not compiled."

end Selection

section Dispatch

variable {Constr IndicatorConstr : Type}

/-! ## Adding constraints (lines 105-134, 173-176, 367-370) -/

/-- The virtual `ISolver::add(Constr const&)` of the active engine: the engine
receives the call, and may throw. -/
def ISolver.add (B : BackendOps Constr IndicatorConstr) (impl : ISolver Constr IndicatorConstr)
    (constr : Constr) : ISolver Constr IndicatorConstr × Option Exception :=
  ({ impl with calls := impl.calls ++ [BackendCall.add constr] }, B.add_throws impl.calls constr)

/-- The virtual `ISolver::add(IndicatorConstr const&)` of the active engine: the
engine receives the call, and may throw. -/
def ISolver.add_indicator (B : BackendOps Constr IndicatorConstr)
    (impl : ISolver Constr IndicatorConstr) (constr : IndicatorConstr) :
    ISolver Constr IndicatorConstr × Option Exception :=
  ({ impl with calls := impl.calls ++ [BackendCall.add_indicator constr] },
    B.add_indicator_throws impl.calls constr)

/-- `detail::ISolver::set_indicator_constraint_policy`. -/
def ISolver.set_indicator_constraint_policy (impl : ISolver Constr IndicatorConstr)
    (policy : IndicatorConstraintPolicy) : ISolver Constr IndicatorConstr :=
  { impl with m_indicator_constraint_policy := policy }

/-- `Solver::set_indicator_constraint_policy`. -/
def Solver.set_indicator_constraint_policy (s : Solver Constr IndicatorConstr)
    (policy : IndicatorConstraintPolicy) : Solver Constr IndicatorConstr :=
  { s with p_impl := s.p_impl.set_indicator_constraint_policy policy }

/-- `Solver::set_constraint_autoscale`. -/
def Solver.set_constraint_autoscale (s : Solver Constr IndicatorConstr) (autoscale : Bool) :
    Solver Constr IndicatorConstr :=
  { s with m_constraint_autoscale := autoscale }

/-- `Solver::supports_indicator_constraint`. -/
def Solver.supports_indicator_constraint (B : BackendOps Constr IndicatorConstr)
    (_s : Solver Constr IndicatorConstr) (constr : IndicatorConstr) : Bool :=
  B.supports_indicator_constraint constr

/-- The message of the `std::logic_error` of line 108. -/
def trivially_unsat_message : String :=
  "Attempt to create a constraint that is trivially unsat."

/-- `Solver::add(Constr const&, bool)`. -/
def Solver.add (M : ModelOps Constr IndicatorConstr) (B : BackendOps Constr IndicatorConstr)
    (s : Solver Constr IndicatorConstr) (constr : Constr) (scale : Bool) :
    Outcome Constr IndicatorConstr :=
  if M.must_be_violated constr then
    { solver := s, thrown := some (Exception.logic_error trivially_unsat_message) }
  else if scale || s.m_constraint_autoscale then
    { solver := { s with p_impl := (s.p_impl.add B (M.scale constr)).1 },
      thrown := (s.p_impl.add B (M.scale constr)).2 }
  else
    { solver := { s with p_impl := (s.p_impl.add B constr).1 },
      thrown := (s.p_impl.add B constr).2 }

/-- The loop `for (auto const& c: constr.reformulation()) add(c, scale);` of
lines 129-130, over the elements still to be visited.  An exception thrown by
`add` leaves the loop. -/
def Solver.add_each (M : ModelOps Constr IndicatorConstr) (B : BackendOps Constr IndicatorConstr)
    (s : Solver Constr IndicatorConstr) : List Constr → Bool → Outcome Constr IndicatorConstr
  | [], _ => { solver := s, thrown := none }
  | c :: cs, scale =>
    match (s.add M B c scale).thrown with
    | none => Solver.add_each M B (s.add M B c scale).solver cs scale
    | some e => { solver := (s.add M B c scale).solver, thrown := some e }

/-- `Solver::add(IndicatorConstr const&, bool)`. -/
def Solver.add_indicator (M : ModelOps Constr IndicatorConstr)
    (B : BackendOps Constr IndicatorConstr) (s : Solver Constr IndicatorConstr)
    (constr : IndicatorConstr) (scale : Bool) : Outcome Constr IndicatorConstr :=
  if s.p_impl.m_indicator_constraint_policy = IndicatorConstraintPolicy.Reformulate ∨
      (s.supports_indicator_constraint B constr = false ∧
        s.p_impl.m_indicator_constraint_policy
          = IndicatorConstraintPolicy.ReformulateIfUnsupported) ∨
      scale = true then
    s.add_each M B (M.reformulation constr) scale
  else
    { solver := { s with p_impl := (s.p_impl.add_indicator B constr).1 },
      thrown := (s.p_impl.add_indicator B constr).2 }

/-- The constraint that `Solver::add(Constr const&, bool)` hands to the engine:
`constr.scale()` when the argument or the autoscale flag asks for scaling,
`constr` itself otherwise. -/
def handed_over (M : ModelOps Constr IndicatorConstr) (autoscale scale : Bool)
    (constr : Constr) : Constr :=
  if scale || autoscale then M.scale constr else constr

/-- The condition under which an indicator constraint is reformulated, in the
words of the specification: the policy is `Reformulate`, or it is
`ReformulateIfUnsupported` and the engine does not support the constraint, or
the `scale` argument is true. -/
def reformulation_triggered (policy : IndicatorConstraintPolicy) (supported scale : Bool) :
    Prop :=
  policy = IndicatorConstraintPolicy.Reformulate ∨
    (policy = IndicatorConstraintPolicy.ReformulateIfUnsupported ∧ supported = false) ∨
    scale = true

instance (policy : IndicatorConstraintPolicy) (supported scale : Bool) :
    Decidable (reformulation_triggered policy supported scale) := by
  unfold reformulation_triggered
  infer_instance

/-- The solver after its engine has received one more call. -/
def Solver.received (s : Solver Constr IndicatorConstr)
    (call : BackendCall Constr IndicatorConstr) : Solver Constr IndicatorConstr :=
  { s with p_impl := { s.p_impl with calls := s.p_impl.calls ++ [call] } }

/-- The solver after its engine has received the given calls, in order. -/
def Solver.received_all (s : Solver Constr IndicatorConstr)
    (calls : List (BackendCall Constr IndicatorConstr)) : Solver Constr IndicatorConstr :=
  { s with p_impl := { s.p_impl with calls := s.p_impl.calls ++ calls } }

/-- Whether the engine, having received `history`, takes the plain constraints
`cs` one after the other, each in the form `Solver::add` hands it over, without
throwing on any of them. -/
def engine_accepts (M : ModelOps Constr IndicatorConstr) (B : BackendOps Constr IndicatorConstr)
    (autoscale scale : Bool) :
    List (BackendCall Constr IndicatorConstr) → List Constr → Bool
  | _, [] => true
  | history, c :: cs =>
    (B.add_throws history (handed_over M autoscale scale c)).isNone &&
      engine_accepts M B autoscale scale
        (history ++ [BackendCall.add (handed_over M autoscale scale c)]) cs

end Dispatch

/-! ## A small concrete model, used to instantiate the general statements -/

/-- A constraint `lhs ≤ rhs` between two integer constants, such as `0 ≤ -1`. -/
structure ConstConstr where
  lhs : Int
  rhs : Int
  deriving DecidableEq, Repr

/-- An indicator constraint given by the list of plain constraints that its
reformulation yields. -/
structure ConstIndicator where
  parts : List ConstConstr
  deriving DecidableEq, Repr

/-- Model operations on constant constraints: `lhs ≤ rhs` is trivially violated
when `rhs < lhs`; scaling moves everything to the right-hand side. -/
def constOps : ModelOps ConstConstr ConstIndicator where
  must_be_violated := fun c => decide (c.rhs < c.lhs)
  scale := fun c => { lhs := 0, rhs := c.rhs - c.lhs }
  reformulation := fun i => i.parts

/-- An engine that never throws and answers `supports` to every
`supports_indicator_constraint` query. -/
def quietBackend (supports : Bool) : BackendOps ConstConstr ConstIndicator where
  supports_indicator_constraint := fun _ => supports
  add_throws := fun _ _ => none
  add_indicator_throws := fun _ _ => none

/-- A solver over the concrete model with the given engine kind, autoscale flag
and policy, whose engine has received no call yet. -/
def freshSolver (k : Backend) (autoscale : Bool) (policy : IndicatorConstraintPolicy) :
    Solver ConstConstr ConstIndicator :=
  { m_backend := k, m_constraint_autoscale := autoscale,
    p_impl := { engine := k, verbose := false, m_indicator_constraint_policy := policy,
                calls := [] } }

/-- Run-time answers in which no engine is available. -/
def noneAvailable : Engines :=
  { gurobi_is_available := false, scip_is_available := false, lpsolve_is_available := false,
    initial_policy := fun _ => IndicatorConstraintPolicy.ReformulateIfUnsupported }

/-- Run-time answers in which every engine is available. -/
def allAvailable : Engines :=
  { gurobi_is_available := true, scip_is_available := true, lpsolve_is_available := true,
    initial_policy := fun _ => IndicatorConstraintPolicy.ReformulateIfUnsupported }

/-- The constraint `0 ≤ -1`, which is trivially violated. -/
def zeroLeMinusOne : ConstConstr := { lhs := 0, rhs := -1 }

/-- The constraint `1 ≤ 3`, which holds; scaled it reads `0 ≤ 2`. -/
def oneLeThree : ConstConstr := { lhs := 1, rhs := 3 }

/-- An indicator constraint whose reformulation is the trivially violated
`0 ≤ -1` followed by `1 ≤ 3`. -/
def badThenGood : ConstIndicator := { parts := [zeroLeMinusOne, oneLeThree] }

/-- An indicator constraint whose reformulation is `1 ≤ 3` followed by `2 ≤ 6`,
neither of them trivially violated. -/
def bothGood : ConstIndicator := { parts := [oneLeThree, { lhs := 2, rhs := 6 }] }

/-- An indicator constraint whose reformulation is the single constraint
`2 ≤ 6`. -/
def singlePart : ConstIndicator := { parts := [{ lhs := 2, rhs := 6 }] }

/-! ## Backend selection -/

section SelectionTheorems

variable {Constr IndicatorConstr : Type}

/-- C1: a `BestAtRunTime` request yields the first engine of the order Gurobi,
Scip, Lpsolve that is both compiled in and available, as `m_backend` and as the
class of the engine object; construction throws a logic error exactly when no
engine is both compiled in and available. -/
theorem best_at_run_time_selects (cfg : Build) (rt : Engines) (verbose : Bool) :
    (Solver.new cfg rt BackendRequest.BestAtRunTime verbose
        : Except Exception (Solver Constr IndicatorConstr)) =
      (match priority_order.find? (fun k => backend_is_compiled cfg k && rt.is_available k) with
        | some k =>
          Except.ok
            { m_backend := k, m_constraint_autoscale := false,
              p_impl := { engine := k, verbose := verbose,
                          m_indicator_constraint_policy := rt.initial_policy k, calls := [] } }
        | none => Except.error (Exception.logic_error "No MIP backends are available.")) ∧
    ((∃ w, (Solver.new cfg rt BackendRequest.BestAtRunTime verbose
        : Except Exception (Solver Constr IndicatorConstr)) = Except.error (Exception.logic_error w))
      ↔ ∀ k, ¬ (backend_is_compiled cfg k = true ∧ rt.is_available k = true)) := by
  obtain ⟨g, s, l⟩ := cfg
  obtain ⟨ag, as, al, p⟩ := rt
  constructor
  · cases g <;> cases s <;> cases l <;> cases ag <;> cases as <;> cases al <;> rfl
  · constructor
    · intro h k
      cases k <;> cases g <;> cases s <;> cases l <;> cases ag <;> cases as <;> cases al <;>
        simp_all [Solver.new, construct, backend_is_available, backend_is_compiled,
          Engines.is_available]
    · intro h
      have hg := h Backend.Gurobi
      have hs := h Backend.Scip
      have hl := h Backend.Lpsolve
      refine ⟨"No MIP backends are available.", ?_⟩
      cases g <;> cases s <;> cases l <;> cases ag <;> cases as <;> cases al <;>
        simp_all [Solver.new, construct, backend_is_available, backend_is_compiled,
          Engines.is_available]

/-- C2: a `BestAtCompileTime` request yields the first engine of the order
Gurobi, Scip, Lpsolve that is compiled in, whatever the engines answer about
their availability (a compiled, unavailable Gurobi is chosen although Scip is
available); construction throws a logic error exactly when no engine is
compiled in. -/
theorem best_at_compile_time_selects (cfg : Build) (rt : Engines) (verbose : Bool) :
    (Solver.new cfg rt BackendRequest.BestAtCompileTime verbose
        : Except Exception (Solver Constr IndicatorConstr)) =
      (match priority_order.find? (fun k => backend_is_compiled cfg k) with
        | some k =>
          Except.ok
            { m_backend := k, m_constraint_autoscale := false,
              p_impl := { engine := k, verbose := verbose,
                          m_indicator_constraint_policy := rt.initial_policy k, calls := [] } }
        | none => Except.error (Exception.logic_error "No MIP backends were compiled.")) ∧
    ((∃ w, (Solver.new cfg rt BackendRequest.BestAtCompileTime verbose
        : Except Exception (Solver Constr IndicatorConstr)) = Except.error (Exception.logic_error w))
      ↔ ∀ k, backend_is_compiled cfg k = false) ∧
    (∀ ag sc lp ag2 sc2 lp2 : Bool,
      (Solver.new cfg ⟨ag, sc, lp, rt.initial_policy⟩ BackendRequest.BestAtCompileTime verbose
        : Except Exception (Solver Constr IndicatorConstr)) =
      Solver.new cfg ⟨ag2, sc2, lp2, rt.initial_policy⟩ BackendRequest.BestAtCompileTime verbose) ∧
    (∀ sc lp : Bool,
      (Solver.new ⟨true, sc, lp⟩ ⟨false, true, true, rt.initial_policy⟩
          BackendRequest.BestAtCompileTime verbose
        : Except Exception (Solver Constr IndicatorConstr)) =
      Except.ok
        { m_backend := Backend.Gurobi, m_constraint_autoscale := false,
          p_impl := { engine := Backend.Gurobi, verbose := verbose,
                      m_indicator_constraint_policy := rt.initial_policy Backend.Gurobi,
                      calls := [] } }) := by
  obtain ⟨g, s, l⟩ := cfg
  obtain ⟨ag, as, al, p⟩ := rt
  refine ⟨?_, ⟨?_, ?_⟩, ?_, ?_⟩
  · cases g <;> cases s <;> cases l <;> rfl
  · intro h k
    cases k <;> cases g <;> cases s <;> cases l <;>
      simp_all [Solver.new, construct, backend_is_compiled]
  · intro h
    have hg := h Backend.Gurobi
    have hs := h Backend.Scip
    have hl := h Backend.Lpsolve
    refine ⟨"No MIP backends were compiled.", ?_⟩
    simp_all [Solver.new, construct, backend_is_compiled]
  · intro _ _ _ _ _ _
    rfl
  · intro _ _
    rfl

/-- C3: an explicit request for engine `E` succeeds with `m_backend = E` (and an
engine object of class `E`) exactly when `E` is compiled in and otherwise throws
a logic error, whatever else is compiled in; the availability answers of the
engines play no part. -/
theorem explicit_request_selects (E : Backend) (cfg : Build) (rt : Engines) (verbose : Bool) :
    (Solver.new cfg rt (explicit_request E) verbose
        : Except Exception (Solver Constr IndicatorConstr)) =
      (if backend_is_compiled cfg E = true then
        Except.ok
          { m_backend := E, m_constraint_autoscale := false,
            p_impl := { engine := E, verbose := verbose,
                        m_indicator_constraint_policy := rt.initial_policy E, calls := [] } }
      else Except.error (Exception.logic_error (not_compiled_message E))) ∧
    ((∃ s, (Solver.new cfg rt (explicit_request E) verbose
        : Except Exception (Solver Constr IndicatorConstr)) = Except.ok s)
      ↔ backend_is_compiled cfg E = true) ∧
    (∀ ag sc lp ag2 sc2 lp2 : Bool,
      (Solver.new cfg ⟨ag, sc, lp, rt.initial_policy⟩ (explicit_request E) verbose
        : Except Exception (Solver Constr IndicatorConstr)) =
      Solver.new cfg ⟨ag2, sc2, lp2, rt.initial_policy⟩ (explicit_request E) verbose) := by
  obtain ⟨g, s, l⟩ := cfg
  refine ⟨?_, ?_, ?_⟩
  · cases E <;> cases g <;> cases s <;> cases l <;> rfl
  · cases E <;> cases g <;> cases s <;> cases l <;>
      simp [Solver.new, construct, explicit_request, backend_is_compiled]
  · intro _ _ _ _ _ _
    cases E <;> rfl

/-- C4 (as amended): with no engine compiled in, construction throws a logic
error for each of the five requests; its message differs from the message
"No MIP backends are available." for every request except `BestAtRunTime`, for
which it is that very message.  A `BestAtRunTime` request throws that message
exactly when no engine is both compiled in and available. -/
theorem no_backend_compiled_errors (rt : Engines) (verbose : Bool) :
    (∀ req : BackendRequest, ∃ w,
      (Solver.new ⟨false, false, false⟩ rt req verbose
        : Except Exception (Solver Constr IndicatorConstr)) =
          Except.error (Exception.logic_error w) ∧
      (w = "No MIP backends are available." ↔ req = BackendRequest.BestAtRunTime)) ∧
    (∀ cfg : Build,
      (Solver.new cfg rt BackendRequest.BestAtRunTime verbose
        : Except Exception (Solver Constr IndicatorConstr)) =
          Except.error (Exception.logic_error "No MIP backends are available.")
      ↔ ∀ k, backend_is_available cfg rt k = false) := by
  constructor
  · intro req
    cases req
    · exact ⟨"Request for Gurobi backend but it was not compiled.", rfl, by decide⟩
    · exact ⟨"Request for SCIP backend but it was not compiled.", rfl, by decide⟩
    · exact ⟨"Request for Lpsolve backend but it was not compiled.", rfl, by decide⟩
    · exact ⟨"No MIP backends were compiled.", rfl, by decide⟩
    · exact ⟨"No MIP backends are available.", rfl, by decide⟩
  · intro cfg
    obtain ⟨g, s, l⟩ := cfg
    obtain ⟨ag, as, al, p⟩ := rt
    constructor
    · intro h k
      cases k <;> cases g <;> cases s <;> cases l <;> cases ag <;> cases as <;> cases al <;>
        simp_all [Solver.new, construct, backend_is_available, backend_is_compiled]
    · intro h
      have hg := h Backend.Gurobi
      have hs := h Backend.Scip
      have hl := h Backend.Lpsolve
      cases g <;> cases s <;> cases l <;> cases ag <;> cases as <;> cases al <;>
        simp_all [Solver.new, construct, backend_is_available, backend_is_compiled]

/-- C4 (counterexample): a `BestAtRunTime` request with no engine compiled in
throws the same logic error, with the same message, as a `BestAtRunTime` request
with all three engines compiled in and none of them available. -/
theorem no_backend_compiled_same_error :
    (Solver.new ⟨false, false, false⟩ allAvailable BackendRequest.BestAtRunTime false
        : Except Exception (Solver ConstConstr ConstIndicator)) =
      Except.error (Exception.logic_error "No MIP backends are available.") ∧
    (Solver.new ⟨true, true, true⟩ noneAvailable BackendRequest.BestAtRunTime false
        : Except Exception (Solver ConstConstr ConstIndicator)) =
      Except.error (Exception.logic_error "No MIP backends are available.") :=
  ⟨rfl, rfl⟩

/-- C5: for a "best" request `backend_is_available` holds exactly when some
engine is both compiled in and available; for an explicit request it is
`backend_is_available` of the engine named, which is the conjunction of
"compiled in" and the engine's own answer; and for `BestAtRunTime` it holds
exactly when construction does not throw "No MIP backends are available.". -/
theorem backend_is_available_request_spec (cfg : Build) (rt : Engines) (verbose : Bool) :
    (backend_is_available_request cfg rt BackendRequest.BestAtRunTime = true
      ↔ ∃ k, backend_is_compiled cfg k = true ∧ rt.is_available k = true) ∧
    (backend_is_available_request cfg rt BackendRequest.BestAtCompileTime = true
      ↔ ∃ k, backend_is_compiled cfg k = true ∧ rt.is_available k = true) ∧
    (∀ E : Backend,
      backend_is_available_request cfg rt (explicit_request E) = backend_is_available cfg rt E ∧
      backend_is_available cfg rt E = (backend_is_compiled cfg E && rt.is_available E)) ∧
    (backend_is_available_request cfg rt BackendRequest.BestAtRunTime = true
      ↔ (Solver.new cfg rt BackendRequest.BestAtRunTime verbose
          : Except Exception (Solver Constr IndicatorConstr)) ≠
        Except.error (Exception.logic_error "No MIP backends are available.")) := by
  obtain ⟨g, s, l⟩ := cfg
  obtain ⟨ag, as, al, p⟩ := rt
  have key : ∀ q : Backend → Prop, (∃ k, q k) ↔
      (q Backend.Gurobi ∨ q Backend.Scip ∨ q Backend.Lpsolve) := by
    intro q
    constructor
    · rintro ⟨k, hk⟩
      cases k
      · exact Or.inl hk
      · exact Or.inr (Or.inl hk)
      · exact Or.inr (Or.inr hk)
    · rintro (h | h | h)
      · exact ⟨_, h⟩
      · exact ⟨_, h⟩
      · exact ⟨_, h⟩
  refine ⟨?_, ?_, ?_, ?_⟩
  · rw [key]
    cases g <;> cases s <;> cases l <;> cases ag <;> cases as <;> cases al <;>
      simp [backend_is_available_request, backend_is_available, backend_is_compiled,
        Engines.is_available]
  · rw [key]
    cases g <;> cases s <;> cases l <;> cases ag <;> cases as <;> cases al <;>
      simp [backend_is_available_request, backend_is_available, backend_is_compiled,
        Engines.is_available]
  · intro E
    cases E <;> cases g <;> cases s <;> cases l <;> cases ag <;> cases as <;> cases al <;>
      simp [backend_is_available_request, backend_is_available, backend_is_compiled,
        Engines.is_available, explicit_request]
  · cases g <;> cases s <;> cases l <;> cases ag <;> cases as <;> cases al <;>
      simp [backend_is_available_request, backend_is_available, backend_is_compiled,
        Solver.new, construct]

end SelectionTheorems

/-! ## Adding constraints -/

section DispatchTheorems

variable {Constr IndicatorConstr : Type}

/-- The plain `add` in one equation: a trivially violated constraint is
rejected with the solver untouched, any other constraint is handed to the
engine once. -/
theorem Solver.add_eq (M : ModelOps Constr IndicatorConstr)
    (B : BackendOps Constr IndicatorConstr) (s : Solver Constr IndicatorConstr)
    (c : Constr) (scale : Bool) :
    s.add M B c scale =
      if M.must_be_violated c = true then
        { solver := s, thrown := some (Exception.logic_error trivially_unsat_message) }
      else
        { solver :=
            s.received (BackendCall.add (handed_over M s.m_constraint_autoscale scale c)),
          thrown :=
            B.add_throws s.p_impl.calls (handed_over M s.m_constraint_autoscale scale c) } := by
  unfold Solver.add ISolver.add handed_over Solver.received
  split_ifs <;> rfl

/-- One round of the loop whose element is trivially violated. -/
theorem Solver.add_each_cons_violated (M : ModelOps Constr IndicatorConstr)
    (B : BackendOps Constr IndicatorConstr) (s : Solver Constr IndicatorConstr)
    (c : Constr) (cs : List Constr) (scale : Bool) (hv : M.must_be_violated c = true) :
    s.add_each M B (c :: cs) scale =
      { solver := s, thrown := some (Exception.logic_error trivially_unsat_message) } := by
  rw [Solver.add_each, Solver.add_eq]
  simp [hv]

/-- One round of the loop on whose element the engine throws. -/
theorem Solver.add_each_cons_thrown (M : ModelOps Constr IndicatorConstr)
    (B : BackendOps Constr IndicatorConstr) (s : Solver Constr IndicatorConstr)
    (c : Constr) (cs : List Constr) (scale : Bool) (e : Exception)
    (hv : M.must_be_violated c = false)
    (hb : B.add_throws s.p_impl.calls (handed_over M s.m_constraint_autoscale scale c) = some e) :
    s.add_each M B (c :: cs) scale =
      { solver := s.received (BackendCall.add (handed_over M s.m_constraint_autoscale scale c)),
        thrown := some e } := by
  rw [Solver.add_each, Solver.add_eq]
  simp [hv, hb]

/-- One round of the loop whose element the engine accepts. -/
theorem Solver.add_each_cons_accepted (M : ModelOps Constr IndicatorConstr)
    (B : BackendOps Constr IndicatorConstr) (s : Solver Constr IndicatorConstr)
    (c : Constr) (cs : List Constr) (scale : Bool)
    (hv : M.must_be_violated c = false)
    (hb : B.add_throws s.p_impl.calls (handed_over M s.m_constraint_autoscale scale c) = none) :
    s.add_each M B (c :: cs) scale =
      (s.received (BackendCall.add (handed_over M s.m_constraint_autoscale scale c))).add_each
        M B cs scale := by
  rw [Solver.add_each, Solver.add_eq]
  simp [hv, hb]

/-- The loop over a reformulation changes nothing of the solver but the calls
its engine has received. -/
theorem Solver.add_each_preserves (M : ModelOps Constr IndicatorConstr)
    (B : BackendOps Constr IndicatorConstr) (scale : Bool) (cs : List Constr) :
    ∀ s : Solver Constr IndicatorConstr,
      (s.add_each M B cs scale).solver.m_backend = s.m_backend ∧
      (s.add_each M B cs scale).solver.m_constraint_autoscale = s.m_constraint_autoscale ∧
      (s.add_each M B cs scale).solver.p_impl.engine = s.p_impl.engine ∧
      (s.add_each M B cs scale).solver.p_impl.m_indicator_constraint_policy
        = s.p_impl.m_indicator_constraint_policy := by
  induction cs with
  | nil => intro s; simp [Solver.add_each]
  | cons c cs ih =>
    intro s
    cases hv : M.must_be_violated c with
    | true => rw [Solver.add_each_cons_violated M B s c cs scale hv]; simp
    | false =>
      cases hb : B.add_throws s.p_impl.calls (handed_over M s.m_constraint_autoscale scale c) with
      | none =>
        rw [Solver.add_each_cons_accepted M B s c cs scale hv hb]
        simpa [Solver.received] using ih _
      | some e =>
        rw [Solver.add_each_cons_thrown M B s c cs scale e hv hb]
        simp [Solver.received]

/-- The loop over a reformulation, characterised by the calls the engine has
received when it ends: either every element was handed over and nothing was
thrown, or the loop stopped at an element `x`, after handing over the elements
before it, because `x` is trivially violated (not handed over) or because the
engine threw on it (handed over). -/
theorem Solver.add_each_calls (M : ModelOps Constr IndicatorConstr)
    (B : BackendOps Constr IndicatorConstr) (scale : Bool) (cs : List Constr) :
    ∀ s : Solver Constr IndicatorConstr,
      ((s.add_each M B cs scale).thrown = none ∧
        (∀ c ∈ cs, M.must_be_violated c = false) ∧
        (s.add_each M B cs scale).solver.p_impl.calls =
          s.p_impl.calls ++
            cs.map (fun c => BackendCall.add (handed_over M s.m_constraint_autoscale scale c))) ∨
      (∃ done x rest e, cs = done ++ x :: rest ∧
        (s.add_each M B cs scale).thrown = some e ∧
        (∀ c ∈ done, M.must_be_violated c = false) ∧
        ((M.must_be_violated x = true ∧
            e = Exception.logic_error trivially_unsat_message ∧
            (s.add_each M B cs scale).solver.p_impl.calls =
              s.p_impl.calls ++
                done.map (fun c =>
                  BackendCall.add (handed_over M s.m_constraint_autoscale scale c))) ∨
          (M.must_be_violated x = false ∧
            (s.add_each M B cs scale).solver.p_impl.calls =
              s.p_impl.calls ++
                (done ++ [x]).map (fun c =>
                  BackendCall.add (handed_over M s.m_constraint_autoscale scale c))))) := by
  induction cs with
  | nil => intro s; left; simp [Solver.add_each]
  | cons c cs ih =>
    intro s
    cases hv : M.must_be_violated c with
    | true =>
      right
      rw [Solver.add_each_cons_violated M B s c cs scale hv]
      exact ⟨[], c, cs, _, rfl, rfl, by simp, Or.inl ⟨hv, rfl, by simp⟩⟩
    | false =>
      cases hb : B.add_throws s.p_impl.calls (handed_over M s.m_constraint_autoscale scale c) with
      | some e =>
        right
        rw [Solver.add_each_cons_thrown M B s c cs scale e hv hb]
        exact ⟨[], c, cs, e, rfl, rfl, by simp, Or.inr ⟨hv, by simp [Solver.received]⟩⟩
      | none =>
        rw [Solver.add_each_cons_accepted M B s c cs scale hv hb]
        rcases ih (s.received (BackendCall.add (handed_over M s.m_constraint_autoscale scale c)))
          with ⟨h1, h2, h3⟩ | ⟨done, x, rest, e, h1, h2, h3, h4⟩
        · left
          refine ⟨h1, ?_, ?_⟩
          · intro d hd
            rcases List.mem_cons.mp hd with rfl | hd
            · exact hv
            · exact h2 d hd
          · rw [h3]; simp [Solver.received]
        · right
          refine ⟨c :: done, x, rest, e, by simp [h1], h2, ?_, ?_⟩
          · intro d hd
            rcases List.mem_cons.mp hd with rfl | hd
            · exact hv
            · exact h3 d hd
          · rcases h4 with ⟨h5, h6, h7⟩ | ⟨h5, h7⟩
            · left; refine ⟨h5, h6, ?_⟩; rw [h7]; simp [Solver.received]
            · right; refine ⟨h5, ?_⟩; rw [h7]; simp [Solver.received]

/-- The loop hands over, one after the other, leading elements that are not
trivially violated and that the engine accepts, and goes on with the rest. -/
theorem Solver.add_each_accepted_segment (M : ModelOps Constr IndicatorConstr)
    (B : BackendOps Constr IndicatorConstr) (scale : Bool) (done rest : List Constr) :
    ∀ s : Solver Constr IndicatorConstr,
      (∀ c ∈ done, M.must_be_violated c = false) →
      engine_accepts M B s.m_constraint_autoscale scale s.p_impl.calls done = true →
      s.add_each M B (done ++ rest) scale =
        (s.received_all
          (done.map (fun c =>
            BackendCall.add (handed_over M s.m_constraint_autoscale scale c)))).add_each
          M B rest scale := by
  induction done with
  | nil =>
    intro s _ _
    simp [Solver.received_all]
  | cons c cs ih =>
    intro s hv ha
    have hc : M.must_be_violated c = false := hv c (List.mem_cons_self c cs)
    have hcs : ∀ d ∈ cs, M.must_be_violated d = false :=
      fun d hd => hv d (List.mem_cons_of_mem c hd)
    simp only [engine_accepts, Bool.and_eq_true, Option.isNone_iff_eq_none] at ha
    rw [List.cons_append, Solver.add_each_cons_accepted M B s c (cs ++ rest) scale hc ha.1]
    rw [ih (s.received (BackendCall.add (handed_over M s.m_constraint_autoscale scale c)))
      hcs ha.2]
    simp [Solver.received, Solver.received_all]

/-- The two paths of the indicator `add`: under the stated condition it is the
loop over the reformulation, otherwise the engine receives the constraint
natively. -/
theorem add_indicator_dispatch_aux (M : ModelOps Constr IndicatorConstr)
    (B : BackendOps Constr IndicatorConstr) (s : Solver Constr IndicatorConstr)
    (I : IndicatorConstr) (scale : Bool) :
    (reformulation_triggered s.p_impl.m_indicator_constraint_policy
        (B.supports_indicator_constraint I) scale →
      s.add_indicator M B I scale = s.add_each M B (M.reformulation I) scale) ∧
    (¬ reformulation_triggered s.p_impl.m_indicator_constraint_policy
        (B.supports_indicator_constraint I) scale →
      s.add_indicator M B I scale =
        { solver := s.received (BackendCall.add_indicator I),
          thrown := B.add_indicator_throws s.p_impl.calls I }) := by
  constructor
  · intro h
    unfold reformulation_triggered at h
    unfold Solver.add_indicator Solver.supports_indicator_constraint
    rw [if_pos]
    tauto
  · intro h
    unfold reformulation_triggered at h
    unfold Solver.add_indicator Solver.supports_indicator_constraint
    rw [if_neg]
    · rfl
    · tauto

/-- C6: a plain constraint with `must_be_violated()` true is rejected with the
logic error of line 108 whatever the `scale` argument and the autoscale flag
are, and the solver, with the calls its engine has received, is exactly what it
was before: no `add` reaches the engine. -/
theorem add_rejects_trivially_violated (M : ModelOps Constr IndicatorConstr)
    (B : BackendOps Constr IndicatorConstr) (s : Solver Constr IndicatorConstr)
    (c : Constr) (scale : Bool) (h : M.must_be_violated c = true) :
    (s.add M B c scale).thrown = some (Exception.logic_error trivially_unsat_message) ∧
    (s.add M B c scale).solver = s ∧
    (s.add M B c scale).solver.p_impl.calls = s.p_impl.calls := by
  rw [Solver.add_eq]
  simp [h]

/-- C9: a plain constraint with `must_be_violated()` false makes the engine
receive exactly one more `add`, of `c.scale()` when the `scale` argument or the
autoscale flag is set and of `c` itself otherwise; the flag is what
`set_constraint_autoscale` last stored and is false after construction. -/
theorem add_hands_over_exactly_once (M : ModelOps Constr IndicatorConstr)
    (B : BackendOps Constr IndicatorConstr) (s : Solver Constr IndicatorConstr)
    (c : Constr) (scale : Bool) (h : M.must_be_violated c = false) :
    (s.add M B c scale).solver.p_impl.calls =
      s.p_impl.calls ++
        [BackendCall.add
          (if scale = true ∨ s.m_constraint_autoscale = true then M.scale c else c)] ∧
    (s.add M B c scale).thrown =
      B.add_throws s.p_impl.calls
        (if scale = true ∨ s.m_constraint_autoscale = true then M.scale c else c) ∧
    (s.add M B c scale).solver.m_constraint_autoscale = s.m_constraint_autoscale ∧
    (∀ a : Bool, (s.set_constraint_autoscale a).m_constraint_autoscale = a ∧
      (s.set_constraint_autoscale a).p_impl = s.p_impl) ∧
    (∀ (cfg : Build) (rt : Engines) (req : BackendRequest) (verbose : Bool)
        (s0 : Solver Constr IndicatorConstr),
      Solver.new cfg rt req verbose = Except.ok s0 → s0.m_constraint_autoscale = false) := by
  refine ⟨?_, ?_, ?_, ?_, ?_⟩
  · rw [Solver.add_eq]
    simp [h, Solver.received, handed_over]
  · rw [Solver.add_eq]
    simp [h, handed_over]
  · rw [Solver.add_eq]
    simp [h, Solver.received]
  · intro a
    exact ⟨rfl, rfl⟩
  · intro cfg rt req verbose s0 hs
    obtain ⟨g, sc, l⟩ := cfg
    obtain ⟨ag, as, al, p⟩ := rt
    cases req <;> cases g <;> cases sc <;> cases l <;> cases ag <;> cases as <;> cases al <;>
      simp [Solver.new, construct, backend_is_available, backend_is_compiled] at hs <;>
      (subst hs; rfl)

/-- C7 (as amended): `Solver::add(I, scale)` takes the reformulation path
exactly under the stated condition.  On that path it is the loop of plain `add`
calls over `I.reformulation()` with the same `scale`, which ends at the first
call that throws: when no element is trivially violated and the engine accepts
every element, the engine receives all of them, in order, and nothing is
thrown; when the leading elements `done` pass and the next element `x` is
trivially violated, the engine receives `done` only and the logic error of
line 108 is thrown; when the engine throws on `x`, it has received `done` and
`x`.  The engine receives no native `add` on that path.  Otherwise the engine
receives exactly one native `add(I)` and no plain constraint.  Under
`ReformulateIfUnsupported` with an engine that does not support `I` no native
`add` is received.  The policy consulted is the one
`set_indicator_constraint_policy` last stored. -/
theorem add_indicator_dispatch (M : ModelOps Constr IndicatorConstr)
    (B : BackendOps Constr IndicatorConstr) (s : Solver Constr IndicatorConstr)
    (I : IndicatorConstr) (scale : Bool) :
    (reformulation_triggered s.p_impl.m_indicator_constraint_policy
        (B.supports_indicator_constraint I) scale →
      s.add_indicator M B I scale = s.add_each M B (M.reformulation I) scale ∧
      ∃ done rest, M.reformulation I = done ++ rest ∧
        (s.add_indicator M B I scale).solver.p_impl.calls =
          s.p_impl.calls ++
            done.map (fun c =>
              BackendCall.add (handed_over M s.m_constraint_autoscale scale c)) ∧
        ((s.add_indicator M B I scale).thrown = none → rest = [])) ∧
    (reformulation_triggered s.p_impl.m_indicator_constraint_policy
        (B.supports_indicator_constraint I) scale →
      (∀ c ∈ M.reformulation I, M.must_be_violated c = false) →
      engine_accepts M B s.m_constraint_autoscale scale s.p_impl.calls (M.reformulation I)
        = true →
      s.add_indicator M B I scale =
        { solver :=
            s.received_all
              ((M.reformulation I).map (fun c =>
                BackendCall.add (handed_over M s.m_constraint_autoscale scale c))),
          thrown := none }) ∧
    (reformulation_triggered s.p_impl.m_indicator_constraint_policy
        (B.supports_indicator_constraint I) scale →
      ∀ done x rest, M.reformulation I = done ++ x :: rest →
        (∀ c ∈ done, M.must_be_violated c = false) →
        engine_accepts M B s.m_constraint_autoscale scale s.p_impl.calls done = true →
        (M.must_be_violated x = true →
          s.add_indicator M B I scale =
            { solver :=
                s.received_all
                  (done.map (fun c =>
                    BackendCall.add (handed_over M s.m_constraint_autoscale scale c))),
              thrown := some (Exception.logic_error trivially_unsat_message) }) ∧
        (∀ e, M.must_be_violated x = false →
          B.add_throws
              (s.p_impl.calls ++
                done.map (fun c =>
                  BackendCall.add (handed_over M s.m_constraint_autoscale scale c)))
              (handed_over M s.m_constraint_autoscale scale x) = some e →
          s.add_indicator M B I scale =
            { solver :=
                s.received_all
                  ((done ++ [x]).map (fun c =>
                    BackendCall.add (handed_over M s.m_constraint_autoscale scale c))),
              thrown := some e })) ∧
    (¬ reformulation_triggered s.p_impl.m_indicator_constraint_policy
        (B.supports_indicator_constraint I) scale →
      s.add_indicator M B I scale =
        { solver := s.received_all [BackendCall.add_indicator I],
          thrown := B.add_indicator_throws s.p_impl.calls I } ∧
      (s.add_indicator M B I scale).solver.p_impl.calls =
        s.p_impl.calls ++ [BackendCall.add_indicator I] ∧
      (s.add_indicator M B I scale).thrown = B.add_indicator_throws s.p_impl.calls I) ∧
    ((∃ J, BackendCall.add_indicator J ∈
        (s.add_indicator M B I scale).solver.p_impl.calls.drop s.p_impl.calls.length)
      ↔ ¬ reformulation_triggered s.p_impl.m_indicator_constraint_policy
          (B.supports_indicator_constraint I) scale) ∧
    (s.p_impl.m_indicator_constraint_policy = IndicatorConstraintPolicy.ReformulateIfUnsupported →
      B.supports_indicator_constraint I = false →
      ∀ J, BackendCall.add_indicator J ∉
        (s.add_indicator M B I scale).solver.p_impl.calls.drop s.p_impl.calls.length) ∧
    (∀ p : IndicatorConstraintPolicy,
      (s.set_indicator_constraint_policy p).p_impl.m_indicator_constraint_policy = p ∧
      (s.set_indicator_constraint_policy p).p_impl.calls = s.p_impl.calls) := by
  have path1 := (add_indicator_dispatch_aux M B s I scale).1
  have path2 := (add_indicator_dispatch_aux M B s I scale).2
  have seg : reformulation_triggered s.p_impl.m_indicator_constraint_policy
        (B.supports_indicator_constraint I) scale →
      ∃ done rest, M.reformulation I = done ++ rest ∧
        (s.add_indicator M B I scale).solver.p_impl.calls =
          s.p_impl.calls ++
            done.map (fun c =>
              BackendCall.add (handed_over M s.m_constraint_autoscale scale c)) ∧
        ((s.add_indicator M B I scale).thrown = none → rest = []) := by
    intro h
    rw [path1 h]
    rcases Solver.add_each_calls M B scale (M.reformulation I) s
      with ⟨h1, _, h3⟩ | ⟨done, x, rest, e, h1, h2, _, h4⟩
    · exact ⟨M.reformulation I, [], by simp, h3, fun _ => rfl⟩
    · rcases h4 with ⟨_, _, h7⟩ | ⟨_, h7⟩
      · exact ⟨done, x :: rest, h1, h7, fun hn => by rw [h2] at hn; cases hn⟩
      · exact ⟨done ++ [x], rest, by simp [h1], h7, fun hn => by rw [h2] at hn; cases hn⟩
  have none1 : reformulation_triggered s.p_impl.m_indicator_constraint_policy
        (B.supports_indicator_constraint I) scale →
      ∀ J, BackendCall.add_indicator J ∉
        (s.add_indicator M B I scale).solver.p_impl.calls.drop s.p_impl.calls.length := by
    intro h J
    obtain ⟨done, rest, _, h2, _⟩ := seg h
    rw [h2, List.drop_left]
    simp
  refine ⟨fun h => ⟨path1 h, seg h⟩, ?_, ?_, ?_, ?_, ?_, fun _ => ⟨rfl, rfl⟩⟩
  · intro h hv ha
    rw [path1 h]
    have hseg := Solver.add_each_accepted_segment M B scale (M.reformulation I) [] s hv ha
    rw [List.append_nil] at hseg
    rw [hseg]
    rfl
  · intro h done x rest hsplit hv ha
    rw [path1 h, hsplit, Solver.add_each_accepted_segment M B scale done (x :: rest) s hv ha]
    constructor
    · intro hx
      rw [Solver.add_each_cons_violated M B _ x rest scale hx]
    · intro e hx he
      rw [Solver.add_each_cons_thrown M B _ x rest scale e hx (by simpa [Solver.received_all] using he)]
      simp [Solver.received, Solver.received_all]
  · intro h
    rw [path2 h]
    exact ⟨rfl, by simp [Solver.received], rfl⟩
  · constructor
    · rintro ⟨J, hJ⟩ h
      exact none1 h J hJ
    · intro h
      refine ⟨I, ?_⟩
      rw [path2 h]
      simp [Solver.received]
  · intro hp hs
    exact none1 (Or.inr (Or.inl ⟨hp, hs⟩))

/-- Witness of C6: adding `0 ≤ -1` with `scale` set, to a solver whose autoscale
flag is set, is rejected and leaves the solver as it was. -/
theorem add_rejects_trivially_violated_witness :
    constOps.must_be_violated zeroLeMinusOne = true ∧
    (((freshSolver Backend.Scip true IndicatorConstraintPolicy.Native).add constOps
        (quietBackend true) zeroLeMinusOne true).thrown
      = some (Exception.logic_error trivially_unsat_message) ∧
    ((freshSolver Backend.Scip true IndicatorConstraintPolicy.Native).add constOps
        (quietBackend true) zeroLeMinusOne true).solver
      = freshSolver Backend.Scip true IndicatorConstraintPolicy.Native ∧
    ((freshSolver Backend.Scip true IndicatorConstraintPolicy.Native).add constOps
        (quietBackend true) zeroLeMinusOne true).solver.p_impl.calls
      = (freshSolver Backend.Scip true IndicatorConstraintPolicy.Native).p_impl.calls) :=
  ⟨by decide,
    add_rejects_trivially_violated constOps (quietBackend true)
      (freshSolver Backend.Scip true IndicatorConstraintPolicy.Native) zeroLeMinusOne true
      (by decide)⟩

/-- Witness of C9: adding `1 ≤ 3` without the `scale` argument to a solver whose
autoscale flag is set hands the engine the single constraint `0 ≤ 2`. -/
theorem add_hands_over_exactly_once_witness :
    constOps.must_be_violated oneLeThree = false ∧
    ((freshSolver Backend.Gurobi true IndicatorConstraintPolicy.Native).add constOps
        (quietBackend true) oneLeThree false).solver.p_impl.calls
      = [BackendCall.add { lhs := 0, rhs := 2 }] :=
  ⟨by decide,
    (add_hands_over_exactly_once constOps (quietBackend true)
      (freshSolver Backend.Gurobi true IndicatorConstraintPolicy.Native) oneLeThree false
      (by decide)).1⟩

/-- C7 (counterexample): under policy `Reformulate`, adding an indicator
constraint whose reformulation is `0 ≤ -1` followed by `1 ≤ 3` takes the
reformulation path and throws at the first element; the engine has received
nothing, although the plain `add` of the second element `1 ≤ 3` on this solver
hands it to the engine: the second element is not passed to the plain `add`. -/
theorem add_indicator_stops_at_rejected_element :
    reformulation_triggered
      (freshSolver Backend.Gurobi false
        IndicatorConstraintPolicy.Reformulate).p_impl.m_indicator_constraint_policy
      ((quietBackend true).supports_indicator_constraint badThenGood) false ∧
    constOps.reformulation badThenGood = [zeroLeMinusOne, oneLeThree] ∧
    ((freshSolver Backend.Gurobi false IndicatorConstraintPolicy.Reformulate).add_indicator
        constOps (quietBackend true) badThenGood false).thrown
      = some (Exception.logic_error trivially_unsat_message) ∧
    ((freshSolver Backend.Gurobi false IndicatorConstraintPolicy.Reformulate).add_indicator
        constOps (quietBackend true) badThenGood false).solver.p_impl.calls = [] ∧
    ((freshSolver Backend.Gurobi false IndicatorConstraintPolicy.Reformulate).add
        constOps (quietBackend true) oneLeThree false).solver.p_impl.calls
      = [BackendCall.add oneLeThree] := by
  refine ⟨by decide, rfl, by decide, by decide, by decide⟩

/-- Witness of C7: under policy `Reformulate` with the `scale` argument set,
adding an indicator constraint whose reformulation is `1 ≤ 3`, `2 ≤ 6` hands the
engine both elements, scaled, in order, and throws nothing. -/
theorem add_indicator_dispatch_witness :
    (freshSolver Backend.Scip false IndicatorConstraintPolicy.Reformulate).add_indicator
        constOps (quietBackend false) bothGood true =
      { solver :=
          (freshSolver Backend.Scip false IndicatorConstraintPolicy.Reformulate).received_all
            [BackendCall.add { lhs := 0, rhs := 2 }, BackendCall.add { lhs := 0, rhs := 4 }],
        thrown := none } :=
  (add_indicator_dispatch constOps (quietBackend false)
    (freshSolver Backend.Scip false IndicatorConstraintPolicy.Reformulate) bothGood true).2.1
    (by decide) (by decide) (by decide)

/-- C10 (the code at the failing input): after `set_constraint_autoscale(true)`,
under policy `ReformulateIfUnsupported` with an engine that supports the
constraint, `add(I, false)` hands the engine the native indicator constraint and
no plain constraint, although the same solver scales the plain constraint
`2 ≤ 6` to `0 ≤ 4` before handing it over. -/
theorem autoscale_keeps_native_indicator :
    (((freshSolver Backend.Gurobi false
          IndicatorConstraintPolicy.ReformulateIfUnsupported).set_constraint_autoscale
        true).add_indicator constOps (quietBackend true) singlePart false).solver.p_impl.calls
      = [BackendCall.add_indicator singlePart] ∧
    (((freshSolver Backend.Gurobi false
          IndicatorConstraintPolicy.ReformulateIfUnsupported).set_constraint_autoscale
        true).add_indicator constOps (quietBackend true) singlePart false).thrown = none ∧
    (((freshSolver Backend.Gurobi false
          IndicatorConstraintPolicy.ReformulateIfUnsupported).set_constraint_autoscale
        true).add constOps (quietBackend true) { lhs := 2, rhs := 6 } false).solver.p_impl.calls
      = [BackendCall.add { lhs := 0, rhs := 4 }] := by
  refine ⟨by decide, by decide, by decide⟩

end DispatchTheorems

end miplib
